import Mathlib

/-!
Verification of the RMCHS SSLG election web application's core logic.

The definitions below are a shallow embedding of the TypeScript source:
pure functions become Lean functions, the backend tables become explicit
lists threaded through the operations, and each fallible backend call is
represented by an explicit outcome parameter.  JavaScript strings are
modelled by Lean `String` (operated on through their character lists
where character-level operations such as `slice` and `toUpperCase`
matter).
-/

namespace Election

/-- A row of the `voters` table (src/types.ts, interface Voter). -/
structure Voter where
  id : String
  lrn : String
  first_name : String
  last_name : String
  grade_level : Nat
  passcode : String
  has_voted : Bool
deriving Repr, DecidableEq

/-- A row of the `candidates` table (src/types.ts, interface Candidate). -/
structure Candidate where
  id : String
  full_name : String
  position : String
  partylist : Option String
  image_url : Option String
  grade_level : Option Nat
deriving Repr, DecidableEq

/-- A row of the `votes` table (src/types.ts, interface Vote).
`candidate_id = none` records an abstention. -/
structure Vote where
  candidate_id : Option String
  position : String
  grade_level : Nat
deriving Repr, DecidableEq

/-- The fixed ordered list of positions (src/types.ts, POSITIONS_ORDER). -/
def POSITIONS_ORDER : List String :=
  ["President", "Vice President", "Secretary", "Treasurer", "Auditor",
   "PIO", "Protocol Officer", "Grade Level Rep"]

/-- src/lib/utils.ts, `generatePasscode`: guard `!lrn || lrn.length < 5`
returns the empty string; otherwise `lrn.slice(-5)` (the last five
characters, modelled on the character list) concatenated with
`(firstName.charAt(0) + lastName.charAt(0)).toUpperCase()`. -/
def generatePasscode (lrn firstName lastName : String) : String :=
  if lrn.length < 5 then "" else
    String.mk (lrn.data.drop (lrn.data.length - 5) ++
      (firstName.data.take 1 ++ lastName.data.take 1).map Char.toUpper)

/-- The passcode formula as the specification words it: the last five
characters of the LRN, then the uppercased first letter of the first
name, then the uppercased first letter of the last name; the empty
string for an LRN shorter than five characters. -/
def passcodeSpec (lrn firstName lastName : String) : String :=
  if lrn.length < 5 then "" else
    String.mk (lrn.data.drop (lrn.data.length - 5) ++
      (firstName.data.take 1).map Char.toUpper ++
      (lastName.data.take 1).map Char.toUpper)

/-- Outcome of the config lookup performed by `getElectionStatus`
(src/lib/supabase.ts): the query can return an error object, the whole
call can throw, the row can be absent, or a row with a string value is
found. -/
inductive StatusFetch where
  | fetchError
  | thrown
  | noRow
  | row (value : String)
deriving Repr, DecidableEq

/-- src/lib/supabase.ts, `getElectionStatus`: every failure path returns
`true`; with a row present the result is `value === 'OPEN'`. -/
def getElectionStatus : StatusFetch → Bool
  | .fetchError => true
  | .thrown => true
  | .noRow => true
  | .row v => v == "OPEN"

/-- The voter-facing selection map, `Object.entries` order:
src/types.ts `VoteSelection = Record<string, string | 'ABSTAIN'>`. -/
abbrev Selections := List (String × String)

/-- src/lib/supabase.ts, `submitBallot` step A: one vote row per entry of
the selection map, with `candidate_id` null exactly for 'ABSTAIN' and the
voter's grade level snapshotted. -/
def votesToInsert (voter : Voter) (selections : Selections) : List Vote :=
  selections.map (fun entry =>
    { position := entry.1
      candidate_id := if entry.2 == "ABSTAIN" then none else some entry.2
      grade_level := voter.grade_level })

/-- The `voters` update of `submitBallot` step C:
`update({ has_voted: true }).eq('id', voter.id)`. -/
def markVoted (voters : List Voter) (voterId : String) : List Voter :=
  voters.map (fun v => if v.id == voterId then { v with has_voted := true } else v)

/-- The two backend tables `submitBallot` touches. -/
structure DB where
  votes : List Vote
  voters : List Voter
deriving Repr, DecidableEq

/-- One run of the backend during `submitBallot`: the outcome of the
election-status lookup and whether each of the two writes errors. -/
structure BackendRun where
  status : StatusFetch
  insertFails : Bool
  updateFails : Bool
deriving Repr, DecidableEq

/-- src/lib/supabase.ts, `submitBallot`: returns `false` if the election
is not open; inserts the vote rows (a thrown insert error is caught and
yields `false` with the tables unchanged); then sets the voter's
`has_voted` flag (a thrown update error is caught and yields `false`
with the votes already inserted); returns `true` on full success. -/
def submitBallot (run : BackendRun) (db : DB) (voter : Voter)
    (selections : Selections) : Bool × DB :=
  if !(getElectionStatus run.status) then
    (false, db)
  else if run.insertFails then
    (false, db)
  else
    let afterInsert : DB := { db with votes := db.votes ++ votesToInsert voter selections }
    if run.updateFails then
      (false, afterInsert)
    else
      (true, { afterInsert with voters := markVoted afterInsert.voters voter.id })

/-- src/components/AdminDashboard.tsx, `fetchData` step 3: the grade
bucket key for a vote row, `vote.grade_level ? vote.grade_level.toString()
: 'Unknown'` (grade level 0 is falsy and lands in the 'Unknown' bucket). -/
def gradeKey (g : Nat) : String :=
  if g == 0 then "Unknown" else toString g

/-- Incrementing one bucket of a grade-breakdown map,
`grades[gradeKey] = (grades[gradeKey] || 0) + 1`. -/
def bump (m : List (String × Nat)) (k : String) : List (String × Nat) :=
  match m with
  | [] => [(k, 1)]
  | (k', n) :: rest => if k' == k then (k, n + 1) :: rest else (k', n) :: bump rest k

/-- One candidate's entry of the `voteMap` built in `fetchData` step 3:
`{ total: number, grades: Record<string, number> }`. -/
structure CandAgg where
  total : Nat
  grades : List (String × Nat)
deriving Repr, DecidableEq

/-- The `voteMap` entry for candidate `cid`: `fetchData` walks all raw
vote rows, skips null `candidate_id`, and for each vote of `cid`
increments the total and the matching grade bucket. -/
def voteMapFor (cid : String) (votes : List Vote) : CandAgg :=
  votes.foldl
    (fun agg v =>
      if v.candidate_id == some cid then
        { total := agg.total + 1, grades := bump agg.grades (gradeKey v.grade_level) }
      else agg)
    { total := 0, grades := [] }

/-- Sum of the bucket counts of a grade-breakdown map. -/
def sumValues (m : List (String × Nat)) : Nat :=
  (m.map (fun p => p.2)).sum

/-- src/components/AdminDashboard.tsx, `ChartDataPoint` as assembled in
`fetchData` step 4 (the presentational `shortName`, `partylist` and
`image` fields are omitted as they play no role in the claims). -/
structure ChartDataPoint where
  id : String
  name : String
  votes : Nat
  grades : List (String × Nat)
deriving Repr, DecidableEq

/-- Building one chart entry from a candidate:
`votes: voteMap[c.id]?.total || 0, grades: voteMap[c.id]?.grades || {}`. -/
def mkPoint (votes : List Vote) (c : Candidate) : ChartDataPoint :=
  { id := c.id, name := c.full_name,
    votes := (voteMapFor c.id votes).total,
    grades := (voteMapFor c.id votes).grades }

/-- The comparator `(a, b) => b.votes - a.votes` as a boolean
less-or-equal relation: `a` may precede `b` when `b.votes ≤ a.votes`. -/
def voteDesc (a b : ChartDataPoint) : Bool :=
  decide (b.votes ≤ a.votes)

/-- `fetchData` step 4 for one position group: map the relevant
candidates to chart entries and sort by descending vote count with the
(stable) array sort. -/
def chartData (votes : List Vote) (relevant : List Candidate) : List ChartDataPoint :=
  (relevant.map (mkPoint votes)).mergeSort voteDesc

/-- src/components/AdminDashboard.tsx, `winners`: for every nonempty
position group, report the element at index 0 as the winner. -/
def winners (data : List (String × List ChartDataPoint)) :
    List (String × ChartDataPoint) :=
  data.filterMap (fun pc =>
    match pc.2 with
    | [] => none
    | c :: _ => some (pc.1, c))

/-- src/unnamed/part_000 (Ballot component), `loadCandidates` filter:
everyone sees main positions; 'Grade Level Rep' candidates only when
their grade matches the voter's. -/
def filterForVoter (cands : List Candidate) (grade : Nat) : List Candidate :=
  cands.filter (fun c =>
    if c.position == "Grade Level Rep" then c.grade_level == some grade else true)

/-- The display key of a position group: 'Grade Level Rep' is renamed to
the voter's grade representative heading. -/
def displayName (grade : Nat) (pos : String) : String :=
  if pos == "Grade Level Rep" then
    "Grade " ++ toString grade ++ " Representative"
  else pos

/-- The keys of `groupedCandidates`: positions of POSITIONS_ORDER with
at least one candidate after the voter filter, under their display
names. -/
def displayedPositions (cands : List Candidate) (grade : Nat) : List String :=
  (POSITIONS_ORDER.filter (fun pos =>
    !((filterForVoter cands grade).filter (fun c => c.position == pos)).isEmpty)).map
    (displayName grade)

/-- `selections[pos]`: the recorded selection for a position, if any. -/
def selLookup (selections : Selections) (pos : String) : Option String :=
  (selections.find? (fun p => p.1 == pos)).map (fun p => p.2)

/-- JavaScript truthiness of `selections[pos]`: an absent entry is
`undefined` (falsy) and the empty string is falsy. -/
def truthyStr : Option String → Bool
  | none => false
  | some v => !(v == "")

/-- src/unnamed/part_000, `isBallotComplete`:
`displayedPositions.every(pos => selections[pos])`. -/
def isBallotComplete (cands : List Candidate) (grade : Nat)
    (selections : Selections) : Bool :=
  (displayedPositions cands grade).all (fun pos => truthyStr (selLookup selections pos))

/-- The submit button's `disabled={!isBallotComplete}` flag. -/
def reviewSubmitDisabled (cands : List Candidate) (grade : Nat)
    (selections : Selections) : Bool :=
  !(isBallotComplete cands grade selections)

/-- One record pushed by the CSV import loop (`votersToImport` entries in
src/components/AdminDashboard.tsx, `handleFileImport`). -/
structure ImportRecord where
  lrn : String
  first_name : String
  last_name : String
  grade_level : String
deriving Repr, DecidableEq

/-- The `for (let i = 1; ...)` body of `handleFileImport`: trim the
line, skip it when empty, split on commas, and when at least four
columns are present push the trimmed first four fields. -/
def importLoop : List String → List ImportRecord
  | [] => []
  | r :: rest =>
    let row := r.trim
    if row == "" then importLoop rest
    else
      match row.splitOn (",") with
      | c0 :: c1 :: c2 :: c3 :: _ =>
        { lrn := c0.trim, first_name := c1.trim,
          last_name := c2.trim, grade_level := c3.trim } :: importLoop rest
      | _ => importLoop rest

/-- src/components/AdminDashboard.tsx, `handleFileImport` parsing:
split the file on newlines and run the loop from index 1 (the header
row is ignored). -/
def handleFileImport (text : String) : List ImportRecord :=
  importLoop ((text.splitOn ("\n")).drop 1)

/-- Spec-side description of one CSV data line: skipped when blank after
trimming; split on commas with no quoting; skipped with fewer than four
columns; otherwise the trimmed first four fields in the order
lrn, first_name, last_name, grade_level. -/
def parseRowSpec (r : String) : Option ImportRecord :=
  let row := r.trim
  if row == "" then none
  else
    let cols := row.splitOn (",")
    if cols.length < 4 then none
    else some { lrn := (cols.getD 0 "").trim, first_name := (cols.getD 1 "").trim,
                last_name := (cols.getD 2 "").trim, grade_level := (cols.getD 3 "").trim }

/-- A `.delete().neq(col, val)` call on a table: the rows for which the
filter condition holds are deleted, the rest remain. -/
def deleteWhere {α : Type} (rows : List α) (cond : α → Bool) : List α :=
  rows.filter (fun r => !(cond r))

/-- src/unnamed/part_003, `wipeAllVoters`:
`from('voters').delete().neq('lrn', '000000')`. -/
def wipeAllVoters (voters : List Voter) : List Voter :=
  deleteWhere voters (fun v => v.lrn != "000000")

/-- src/unnamed/part_003, `wipeAllCandidates`: delete votes with
`neq('grade_level', 0)` and candidates with `neq('position', 'INVALID')`. -/
def wipeAllCandidates (votes : List Vote) (cands : List Candidate) :
    List Vote × List Candidate :=
  (deleteWhere votes (fun v => v.grade_level != 0),
   deleteWhere cands (fun c => c.position != "INVALID"))

/-- src/unnamed/part_003, `factoryResetElection`: the three deletes of
the wipe operations in sequence. -/
def factoryResetElection (votes : List Vote) (cands : List Candidate)
    (voters : List Voter) : List Vote × List Candidate × List Voter :=
  (deleteWhere votes (fun v => v.grade_level != 0),
   deleteWhere cands (fun c => c.position != "INVALID"),
   deleteWhere voters (fun v => v.lrn != "000000"))

/-! ### Concrete fixtures used by the witness theorems -/

/-- A typical voter used as a concrete fixture. -/
def wVoter : Voter :=
  { id := "v1", lrn := "123456789012", first_name := "Juan", last_name := "Cruz",
    grade_level := 7, passcode := "89012JC", has_voted := false }

/-- A typical selection map used as a concrete fixture. -/
def wSel : Selections :=
  [("President", "c1"), ("Vice President", "ABSTAIN")]

/-- A database fixture holding only the fixture voter. -/
def wDb : DB := { votes := [], voters := [wVoter] }

/-- A backend run with the election closed. -/
def wRunClosed : BackendRun :=
  { status := StatusFetch.row "CLOSED", insertFails := false, updateFails := false }

/-- A backend run where both writes succeed. -/
def wRunOk : BackendRun :=
  { status := StatusFetch.row "OPEN", insertFails := false, updateFails := false }

/-- A backend run where the vote insert succeeds and the voter update fails. -/
def wRunUpdFail : BackendRun :=
  { status := StatusFetch.row "OPEN", insertFails := false, updateFails := true }

/-- A voter whose LRN coincides with the sentinel of the wipe filter. -/
def sentinelVoter : Voter :=
  { id := "v0", lrn := "000000", first_name := "Zero", last_name := "Zero",
    grade_level := 7, passcode := "", has_voted := false }

/-! ### Theorems -/

/-- C6: for every LRN of length at least 5 the passcode is the last five
characters of the LRN followed by the uppercased first letters of the
first and last names, and for every shorter LRN it is the empty string —
i.e. `generatePasscode` agrees everywhere with the formula as the
specification words it. -/
theorem generatePasscode_eq_spec (lrn firstName lastName : String) :
    generatePasscode lrn firstName lastName = passcodeSpec lrn firstName lastName := by
  unfold generatePasscode passcodeSpec
  by_cases h : lrn.length < 5
  · simp [h]
  · simp [h, List.map_append]

/-- C10: `getElectionStatus` is fail-open: it returns `false` exactly
when a config row for the election status exists and its value is not
the string 'OPEN'; on a lookup error, a thrown exception, or a missing
row it returns `true`. -/
theorem getElectionStatus_fail_open :
    (∀ sf : StatusFetch, getElectionStatus sf = false ↔
      ∃ v, sf = StatusFetch.row v ∧ v ≠ "OPEN")
    ∧ getElectionStatus StatusFetch.fetchError = true
    ∧ getElectionStatus StatusFetch.thrown = true
    ∧ getElectionStatus StatusFetch.noRow = true := by
  refine ⟨fun sf => ?_, rfl, rfl, rfl⟩
  cases sf with
  | fetchError => simp [getElectionStatus]
  | thrown => simp [getElectionStatus]
  | noRow => simp [getElectionStatus]
  | row v =>
    simp only [getElectionStatus, beq_eq_false_iff_ne, ne_eq, StatusFetch.row.injEq]
    constructor
    · intro h
      exact ⟨v, rfl, h⟩
    · rintro ⟨v', rfl, h⟩
      exact h

/-- C9: when the election-status check reports the election closed,
`submitBallot` returns `false` and leaves both tables unchanged, before
any vote row is inserted and without touching the has_voted flag. -/
theorem submitBallot_closed_noop (run : BackendRun) (db : DB) (voter : Voter)
    (selections : Selections) (hclosed : getElectionStatus run.status = false) :
    submitBallot run db voter selections = (false, db) := by
  simp [submitBallot, hclosed]

/-- Witness for C9 at a concrete closed run. -/
theorem submitBallot_closed_noop_witness :
    getElectionStatus wRunClosed.status = false
    ∧ submitBallot wRunClosed wDb wVoter wSel = (false, wDb) :=
  ⟨by decide, submitBallot_closed_noop wRunClosed wDb wVoter wSel (by decide)⟩

/-- C2: when the vote insert succeeds and the subsequent voters update
fails, `submitBallot` returns `false` while the inserted vote rows
remain in the votes table and the voters table is unchanged (no
rollback, flag not set). -/
theorem submitBallot_no_rollback (run : BackendRun) (db : DB) (voter : Voter)
    (selections : Selections) (hopen : getElectionStatus run.status = true)
    (hins : run.insertFails = false) (hupd : run.updateFails = true) :
    (submitBallot run db voter selections).1 = false
    ∧ (submitBallot run db voter selections).2.votes =
        db.votes ++ votesToInsert voter selections
    ∧ (submitBallot run db voter selections).2.voters = db.voters := by
  simp [submitBallot, hopen, hins, hupd]

/-- Witness for C2 at a concrete run whose update write fails. -/
theorem submitBallot_no_rollback_witness :
    getElectionStatus wRunUpdFail.status = true
    ∧ wRunUpdFail.insertFails = false
    ∧ wRunUpdFail.updateFails = true
    ∧ ((submitBallot wRunUpdFail wDb wVoter wSel).1 = false
       ∧ (submitBallot wRunUpdFail wDb wVoter wSel).2.votes =
           wDb.votes ++ votesToInsert wVoter wSel
       ∧ (submitBallot wRunUpdFail wDb wVoter wSel).2.voters = wDb.voters) :=
  ⟨by decide, rfl, rfl,
   submitBallot_no_rollback wRunUpdFail wDb wVoter wSel (by decide) rfl rfl⟩

/-- C8 counterexample: the wipe filters are not always true — a voter
whose LRN is exactly '000000' matches the `neq` sentinel and survives
`wipeAllVoters`, so the operation does not delete every row for every
table contents. -/
theorem wipeAllVoters_not_unconditional :
    wipeAllVoters [sentinelVoter] ≠ [] := by decide

/-- C8 (amended): each wipe operation deletes every row except those
matching its `neq` sentinel (voter LRN '000000', vote grade level 0,
candidate position 'INVALID'); in particular, whenever no row matches a
sentinel, all rows of the targeted tables are deleted. -/
theorem wipe_deletes_all_nonsentinel (voters : List Voter) (votes : List Vote)
    (cands : List Candidate)
    (h1 : ∀ v ∈ voters, v.lrn ≠ "000000")
    (h2 : ∀ w ∈ votes, w.grade_level ≠ 0)
    (h3 : ∀ c ∈ cands, c.position ≠ "INVALID") :
    wipeAllVoters voters = []
    ∧ wipeAllCandidates votes cands = ([], [])
    ∧ factoryResetElection votes cands voters = ([], [], []) := by
  have hv : deleteWhere voters (fun v => v.lrn != "000000") = [] := by
    simp only [deleteWhere, List.filter_eq_nil_iff]
    intro a ha
    simp [h1 a ha]
  have hw : deleteWhere votes (fun w => w.grade_level != 0) = [] := by
    simp only [deleteWhere, List.filter_eq_nil_iff]
    intro a ha
    simp [h2 a ha]
  have hc : deleteWhere cands (fun c => c.position != "INVALID") = [] := by
    simp only [deleteWhere, List.filter_eq_nil_iff]
    intro a ha
    simp [h3 a ha]
  refine ⟨hv, ?_, ?_⟩
  · unfold wipeAllCandidates
    rw [hw, hc]
  · unfold factoryResetElection
    rw [hw, hc, hv]

/-- Witness for the amended C8 at concrete non-sentinel table contents. -/
theorem wipe_deletes_all_nonsentinel_witness :
    (∀ v ∈ [wVoter], v.lrn ≠ "000000")
    ∧ (∀ w ∈ [Vote.mk (some "c1") "President" 7], w.grade_level ≠ 0)
    ∧ (∀ c ∈ [Candidate.mk "c1" "Alice A" "President" none none none], c.position ≠ "INVALID")
    ∧ (wipeAllVoters [wVoter] = []
       ∧ wipeAllCandidates [Vote.mk (some "c1") "President" 7]
           [Candidate.mk "c1" "Alice A" "President" none none none] = ([], [])
       ∧ factoryResetElection [Vote.mk (some "c1") "President" 7]
           [Candidate.mk "c1" "Alice A" "President" none none none] [wVoter] = ([], [], [])) :=
  ⟨by decide, by decide, by decide,
   wipe_deletes_all_nonsentinel [wVoter] [Vote.mk (some "c1") "President" 7]
     [Candidate.mk "c1" "Alice A" "President" none none none]
     (by decide) (by decide) (by decide)⟩

/-- The row/selection correspondence claimed for `submitBallot`: one row
per selection entry, positionally matched, with null candidate exactly
for 'ABSTAIN' and the voter's grade level snapshotted. -/
def rowsMatchSelections (voter : Voter) (selections : Selections) : Prop :=
  (votesToInsert voter selections).length = selections.length
  ∧ ∀ pr ∈ List.zip (votesToInsert voter selections) selections,
      pr.1.position = pr.2.1
      ∧ pr.1.grade_level = voter.grade_level
      ∧ (pr.1.candidate_id = none ↔ pr.2.2 = "ABSTAIN")
      ∧ (pr.2.2 ≠ "ABSTAIN" → pr.1.candidate_id = some pr.2.2)

theorem votesToInsert_matches (voter : Voter) (selections : Selections) :
    rowsMatchSelections voter selections := by
  refine ⟨by simp [votesToInsert], ?_⟩
  induction selections with
  | nil =>
    intro pr hpr
    simp [votesToInsert] at hpr
  | cons e rest ih =>
    intro pr hpr
    simp only [votesToInsert, List.map_cons, List.zip_cons_cons, List.mem_cons] at hpr
    rcases hpr with rfl | hpr
    · refine ⟨rfl, rfl, ?_, ?_⟩
      · by_cases h : e.2 = "ABSTAIN"
        · simp [h]
        · simp [h]
      · intro h
        simp [h]
    · exact ih pr hpr

theorem markVoted_sets_flag (voters : List Voter) (voterId : String) :
    ∀ v ∈ markVoted voters voterId, v.id = voterId → v.has_voted = true := by
  intro v hv hid
  simp only [markVoted, List.mem_map] at hv
  obtain ⟨u, _, rfl⟩ := hv
  by_cases h : u.id == voterId
  · simp [h]
  · simp only [h, if_neg, Bool.false_eq_true, ite_false] at hid ⊢
    exact absurd hid (by simpa using h)

/-- C1: on a successful run (election open, both writes succeed),
`submitBallot` constructs exactly one vote row per selection entry —
null candidate exactly for 'ABSTAIN', the selected candidate id
otherwise, and the voter's grade level on every row — appends exactly
those rows to the votes table, returns `true`, and sets the voter's
has_voted flag. -/
theorem submitBallot_success_spec (run : BackendRun) (db : DB) (voter : Voter)
    (selections : Selections) (hopen : getElectionStatus run.status = true)
    (hins : run.insertFails = false) (hupd : run.updateFails = false) :
    rowsMatchSelections voter selections
    ∧ (submitBallot run db voter selections).1 = true
    ∧ (submitBallot run db voter selections).2.votes =
        db.votes ++ votesToInsert voter selections
    ∧ ∀ v ∈ (submitBallot run db voter selections).2.voters,
        v.id = voter.id → v.has_voted = true := by
  refine ⟨votesToInsert_matches voter selections, ?_, ?_, ?_⟩
  · simp [submitBallot, hopen, hins, hupd]
  · simp [submitBallot, hopen, hins, hupd]
  · simp only [submitBallot, hopen, hins, hupd, Bool.not_true, Bool.false_eq_true,
      if_false, ite_false]
    exact markVoted_sets_flag db.voters voter.id

/-- Witness for C1 at a concrete successful run. -/
theorem submitBallot_success_spec_witness :
    getElectionStatus wRunOk.status = true
    ∧ wRunOk.insertFails = false
    ∧ wRunOk.updateFails = false
    ∧ (rowsMatchSelections wVoter wSel
       ∧ (submitBallot wRunOk wDb wVoter wSel).1 = true
       ∧ (submitBallot wRunOk wDb wVoter wSel).2.votes =
           wDb.votes ++ votesToInsert wVoter wSel
       ∧ ∀ v ∈ (submitBallot wRunOk wDb wVoter wSel).2.voters,
           v.id = wVoter.id → v.has_voted = true) :=
  ⟨by decide, rfl, rfl,
   submitBallot_success_spec wRunOk wDb wVoter wSel (by decide) rfl rfl⟩

theorem sumValues_bump (m : List (String × Nat)) (k : String) :
    sumValues (bump m k) = sumValues m + 1 := by
  induction m with
  | nil => simp [bump, sumValues]
  | cons p rest ih =>
    obtain ⟨k', n⟩ := p
    by_cases h : k' == k
    · simp only [bump, h, if_true, sumValues, List.map_cons, List.sum_cons]
      omega
    · simp only [bump, h, Bool.false_eq_true, if_false, sumValues, List.map_cons,
        List.sum_cons] at *
      omega

/-- C4: for every list of raw vote rows and every candidate id, the
per-grade bucket counts of the aggregation's grade breakdown sum to the
candidate's total vote count. -/
theorem gradesMap_sum_eq_total (votes : List Vote) (cid : String) :
    sumValues (voteMapFor cid votes).grades = (voteMapFor cid votes).total := by
  unfold voteMapFor
  generalize hinit : ({ total := 0, grades := [] } : CandAgg) = agg
  have hbase : sumValues agg.grades = agg.total := by
    rw [← hinit]
    simp [sumValues]
  clear hinit
  induction votes generalizing agg with
  | nil => simpa using hbase
  | cons v rest ih =>
    simp only [List.foldl_cons]
    apply ih
    by_cases h : v.candidate_id == some cid
    · simp [h, sumValues_bump, hbase]
    · simpa [h] using hbase

theorem voteDesc_trans (a b c : ChartDataPoint) :
    voteDesc a b → voteDesc b c → voteDesc a c := by
  simp only [voteDesc, decide_eq_true_eq]
  omega

theorem voteDesc_total (a b : ChartDataPoint) :
    (voteDesc a b || voteDesc b a) = true := by
  simp only [voteDesc, Bool.or_eq_true, decide_eq_true_eq]
  omega

/-- C3: every position group's candidate list is sorted in descending
order of vote count, and the winner reported for the group is the
element at index 0, whose vote count is at least that of every candidate
in the group. -/
theorem chartData_sorted_winner (votes : List Vote) (relevant : List Candidate)
    (pos : String) :
    List.Pairwise (fun a b : ChartDataPoint => b.votes ≤ a.votes)
      (chartData votes relevant)
    ∧ ∀ c cs, chartData votes relevant = c :: cs →
        winners [(pos, chartData votes relevant)] = [(pos, c)]
        ∧ ∀ x ∈ chartData votes relevant, x.votes ≤ c.votes := by
  have hsorted : List.Pairwise (fun a b : ChartDataPoint => b.votes ≤ a.votes)
      (chartData votes relevant) := by
    have hs := List.sorted_mergeSort voteDesc_trans voteDesc_total
      (relevant.map (mkPoint votes))
    unfold chartData
    refine List.Pairwise.imp ?_ hs
    intro a b hab
    simpa [voteDesc] using hab
  refine ⟨hsorted, fun c cs heq => ⟨?_, ?_⟩⟩
  · simp [winners, heq]
  · intro x hx
    rw [heq] at hx hsorted
    rcases List.mem_cons.mp hx with rfl | hx'
    · exact le_refl _
    · exact (List.pairwise_cons.mp hsorted).1 x hx'

/-- Candidate fixture for the C3 witness. -/
def wCandA : Candidate :=
  { id := "c1", full_name := "Alice A", position := "President",
    partylist := none, image_url := none, grade_level := none }

/-- Second candidate fixture for the C3 witness. -/
def wCandB : Candidate :=
  { id := "c2", full_name := "Bob B", position := "President",
    partylist := none, image_url := none, grade_level := none }

/-- Raw vote fixture for the C3 witness: one vote for the second
candidate. -/
def wVotesC3 : List Vote := [{ candidate_id := some "c2", position := "President", grade_level := 7 }]

/-- The chart entry of the vote-receiving candidate in the C3 witness. -/
def wPointB : ChartDataPoint :=
  { id := "c2", name := "Bob B", votes := 1, grades := [("7", 1)] }

/-- The chart entry of the vote-less candidate in the C3 witness. -/
def wPointA : ChartDataPoint :=
  { id := "c1", name := "Alice A", votes := 0, grades := [] }

unseal List.merge List.mergeSort in
theorem chartData_sorted_winner_witness :
    chartData wVotesC3 [wCandA, wCandB] = wPointB :: [wPointA]
    ∧ (winners [("President", chartData wVotesC3 [wCandA, wCandB])] =
         [("President", wPointB)]
       ∧ ∀ x ∈ chartData wVotesC3 [wCandA, wCandB], x.votes ≤ wPointB.votes) :=
  ⟨rfl,
   (chartData_sorted_winner wVotesC3 [wCandA, wCandB] "President").2 wPointB [wPointA] rfl⟩

theorem selLookup_ne_empty (cands : List Candidate) (selections : Selections)
    (hvals : ∀ p ∈ selections, p.2 = "ABSTAIN" ∨ ∃ c ∈ cands, p.2 = c.id)
    (hids : ∀ c ∈ cands, c.id ≠ "") :
    ∀ pos v, selLookup selections pos = some v → v ≠ "" := by
  intro pos v hsel
  unfold selLookup at hsel
  obtain ⟨p, hp, rfl⟩ := Option.map_eq_some'.mp hsel
  have hmem := List.mem_of_find?_eq_some hp
  rcases hvals p hmem with h1 | ⟨c, hc, h2⟩
  · rw [h1]
    decide
  · rw [h2]
    exact hids c hc

/-- C5: whenever every stored selection value is either 'ABSTAIN' or the
id of a candidate (candidate ids being nonempty), the ballot
completeness check succeeds precisely when every displayed position has
a recorded selection; and whenever some displayed position lacks a
selection, the submit action is disabled. -/
theorem isBallotComplete_iff (cands : List Candidate) (grade : Nat)
    (selections : Selections)
    (hvals : ∀ p ∈ selections, p.2 = "ABSTAIN" ∨ ∃ c ∈ cands, p.2 = c.id)
    (hids : ∀ c ∈ cands, c.id ≠ "") :
    (isBallotComplete cands grade selections = true ↔
      ∀ pos ∈ displayedPositions cands grade, ∃ v, selLookup selections pos = some v)
    ∧ ((∃ pos ∈ displayedPositions cands grade, selLookup selections pos = none) →
       reviewSubmitDisabled cands grade selections = true) := by
  have hne := selLookup_ne_empty cands selections hvals hids
  have hiff : isBallotComplete cands grade selections = true ↔
      ∀ pos ∈ displayedPositions cands grade, ∃ v, selLookup selections pos = some v := by
    unfold isBallotComplete
    rw [List.all_eq_true]
    constructor
    · intro hall pos hpos
      have htr := hall pos hpos
      cases hsel : selLookup selections pos with
      | none =>
        rw [hsel] at htr
        simp [truthyStr] at htr
      | some v => exact ⟨v, rfl⟩
    · intro hall pos hpos
      obtain ⟨v, hv⟩ := hall pos hpos
      rw [hv]
      simpa [truthyStr] using hne pos v hv
  refine ⟨hiff, ?_⟩
  rintro ⟨pos, hpos, hnone⟩
  unfold reviewSubmitDisabled
  cases hcomp : isBallotComplete cands grade selections with
  | false => rfl
  | true =>
    obtain ⟨v, hv⟩ := hiff.mp hcomp pos hpos
    rw [hv] at hnone
    exact absurd hnone (by simp)

/-- Candidate list fixture for the C5 witness. -/
def wCandsC5 : List Candidate :=
  [{ id := "c1", full_name := "Alice A", position := "President",
     partylist := none, image_url := none, grade_level := none }]

/-- Selection fixture for the C5 witness. -/
def wSelC5 : Selections := [("President", "c1")]

theorem isBallotComplete_iff_witness :
    (∀ p ∈ wSelC5, p.2 = "ABSTAIN" ∨ ∃ c ∈ wCandsC5, p.2 = c.id)
    ∧ (∀ c ∈ wCandsC5, c.id ≠ "")
    ∧ ((isBallotComplete wCandsC5 7 wSelC5 = true ↔
         ∀ pos ∈ displayedPositions wCandsC5 7, ∃ v, selLookup wSelC5 pos = some v)
       ∧ ((∃ pos ∈ displayedPositions wCandsC5 7, selLookup wSelC5 pos = none) →
          reviewSubmitDisabled wCandsC5 7 wSelC5 = true)) :=
  ⟨by decide, by decide, isBallotComplete_iff wCandsC5 7 wSelC5 (by decide) (by decide)⟩

theorem importLoop_eq_filterMap :
    ∀ rows : List String, importLoop rows = rows.filterMap parseRowSpec := by
  intro rows
  induction rows with
  | nil => rfl
  | cons r rest ih =>
    rw [List.filterMap_cons]
    by_cases h : r.trim == ""
    · simp only [importLoop, h, if_true, parseRowSpec, ih]
    · simp only [importLoop, h, Bool.false_eq_true, if_false, parseRowSpec]
      rcases hc : (r.trim).splitOn (",") with _ | ⟨c0, _ | ⟨c1, _ | ⟨c2, _ | ⟨c3, t⟩⟩⟩⟩ <;>
        first
        | (have h4 : ¬ (t.length + 1 + 1 + 1 + 1 < 4) := by omega
           simp [hc, ih, List.getD, h4])
        | simp [hc, ih, List.getD]

/-- C7: the CSV voter import equals its specification: the first
(header) line is dropped, every remaining line is trimmed and skipped
when blank, split on commas with no quoting, skipped when it has fewer
than four columns, and otherwise yields one record holding the trimmed
first four fields in the order lrn, first_name, last_name, grade_level. -/
theorem handleFileImport_eq_spec (text : String) :
    handleFileImport text = ((text.splitOn ("\n")).drop 1).filterMap parseRowSpec := by
  unfold handleFileImport
  exact importLoop_eq_filterMap ((text.splitOn ("\n")).drop 1)

end Election
